import Mathlib

/-!
Verification of the device-pilot event-to-evidence pipeline core.

Shallow embedding of the Python sources:
  * `src/session.py`          — the `Session` state machine;
  * `src/session_manager.py`  — the `SessionManager` orchestration;
  * `src/detector.py`         — the motion/light `Detector` state;
  * `src/buffer.py`           — the `HLSBuffer` pre-roll slicing and
                                 overflow reclamation.

Python floats used as timestamps and scores are modelled as rationals
(they only ever meet `+`, `-`, `/`, `abs` and order comparisons here).
Mutating methods become pure functions returning the updated record.
The manager's dynamic callbacks `on_session_start` / `on_session_finalize`
are modelled as invocation counters, and the `uuid`-based 8-character
session id as a fresh natural number drawn from a `next_id` counter
(ids are opaque tokens; the code only needs them distinct).
-/

namespace DevicePilot

/-- `SessionState` from `src/session.py`. -/
inductive SessionState where
  | RECORDING
  | COOLDOWN
  | FINALIZING
  | COMPLETED
deriving DecidableEq, Repr

open SessionState

/-- `Session` dataclass from `src/session.py`.  Clip paths are opaque
strings; the id is a natural number (see the module comment). -/
structure Session where
  id : Nat
  state : SessionState
  start_time : ℚ
  last_activity_time : ℚ
  cooldown_start_time : Option ℚ
  clips : List String
deriving DecidableEq, Repr

/-- `Session.enter_cooldown` (src/session.py lines 30–34). -/
def enter_cooldown (s : Session) (current_time : ℚ) : Session :=
  if s.state = RECORDING then
    { s with state := COOLDOWN, cooldown_start_time := some current_time }
  else s

/-- `Session.extend_recording` (src/session.py lines 36–41).
The state guard protects only the state change and the clearing of
`cooldown_start_time`; `last_activity_time` is assigned unconditionally,
so the assignment is inlined into both branches. -/
def extend_recording (s : Session) (current_time : ℚ) : Session :=
  if s.state = COOLDOWN then
    { s with state := RECORDING, cooldown_start_time := none,
             last_activity_time := current_time }
  else
    { s with last_activity_time := current_time }

/-- `Session.should_finalize` (src/session.py lines 43–49). -/
def should_finalize (s : Session) (current_time cooldown_seconds : ℚ) : Bool :=
  if s.state ≠ COOLDOWN then false
  else
    match s.cooldown_start_time with
    | none => false
    | some c => decide ((current_time - c) ≥ cooldown_seconds)

/-- `Session.enter_finalizing` (src/session.py lines 51–54).
Note: it does not touch `cooldown_start_time`. -/
def enter_finalizing (s : Session) : Session :=
  if s.state = COOLDOWN then { s with state := FINALIZING } else s

/-- `Session.complete` (src/session.py lines 56–58): the assignment is
unconditional, there is no state guard in the source. -/
def complete (s : Session) : Session :=
  { s with state := COMPLETED }

/-- `Session.add_clip` (src/session.py lines 60–62). -/
def add_clip (s : Session) (clip_path : String) : Session :=
  { s with clips := s.clips ++ [clip_path] }

/-- `Session.is_active` (src/session.py lines 64–67). -/
def is_active (s : Session) : Bool :=
  s.state = RECORDING ∨ s.state = COOLDOWN ∨ s.state = FINALIZING

/-- The `Session(...)` constructor defaults of the dataclass: state
RECORDING, no cooldown start, no clips (src/session.py lines 19–28,
start and activity times as passed by `_start_new_session`). -/
def mkSession (id : Nat) (start_time last_activity_time : ℚ) : Session :=
  { id := id
    state := RECORDING
    start_time := start_time
    last_activity_time := last_activity_time
    cooldown_start_time := none
    clips := [] }

/-- The four mutating session operations, as an alphabet for talking
about sessions reachable by arbitrary call sequences. -/
inductive SessOp where
  | cooldown (t : ℚ)
  | extend (t : ℚ)
  | finalizing
  | completeOp
deriving DecidableEq, Repr

/-- Apply one session operation. -/
def applySessOp (s : Session) : SessOp → Session
  | SessOp.cooldown t => enter_cooldown s t
  | SessOp.extend t => extend_recording s t
  | SessOp.finalizing => enter_finalizing s
  | SessOp.completeOp => complete s

/-- Run a list of session operations from left to right. -/
def runSessOps (s : Session) (ops : List SessOp) : Session :=
  ops.foldl applySessOp s

/-! ### Session manager (src/session_manager.py) -/

/-- `SessionManagerConfig` (src/session_manager.py lines 11–16). -/
structure SessionManagerConfig where
  pre_roll_seconds : ℚ := 10
  cooldown_seconds : ℚ := 10
deriving DecidableEq, Repr

/-- `SessionManager` state (src/session_manager.py lines 29–47).
`active_sessions` is a Python dict keyed by the session id with
insertion-ordered iteration; a list of sessions carrying their ids (with
removal by id) models it exactly.  The two optional callbacks are
modelled by counting their invocations in `start_calls` /
`finalize_calls`. -/
structure SessionManager where
  config : SessionManagerConfig
  active_sessions : List Session
  completed_sessions : List Session
  next_id : Nat
  start_calls : Nat
  finalize_calls : Nat
deriving DecidableEq, Repr

/-- The freshly constructed manager (src/session_manager.py lines 29–47). -/
def mkManager (config : SessionManagerConfig) : SessionManager :=
  { config := config
    active_sessions := []
    completed_sessions := []
    next_id := 0
    start_calls := 0
    finalize_calls := 0 }

/-- `SessionManager._start_new_session` (src/session_manager.py
lines 98–109): create the session, register it, fire
`on_session_start`. -/
def start_new_session (m : SessionManager) (current_time : ℚ) : SessionManager :=
  let session := mkSession m.next_id current_time current_time
  { m with
    active_sessions := m.active_sessions ++ [session]
    next_id := m.next_id + 1
    start_calls := m.start_calls + 1 }

/-- `SessionManager.on_motion_detected` (src/session_manager.py
lines 49–65). -/
def on_motion_detected (m : SessionManager) (current_time : ℚ) : SessionManager :=
  if m.active_sessions ≠ [] then
    { m with
      active_sessions := m.active_sessions.map (fun s => extend_recording s current_time) }
  else
    start_new_session m current_time

/-- `SessionManager.on_no_motion` (src/session_manager.py lines 67–78). -/
def on_no_motion (m : SessionManager) (current_time : ℚ) : SessionManager :=
  { m with
    active_sessions := m.active_sessions.map (fun s =>
      if s.state = RECORDING then enter_cooldown s current_time else s) }

/-- `SessionManager._finalize_session` (src/session_manager.py
lines 111–121): enter FINALIZING, fire `on_session_finalize`, delete
from the active map by id, mark COMPLETED, append to the completed
list. -/
def finalize_session (m : SessionManager) (session : Session) : SessionManager :=
  let s1 := enter_finalizing session
  { m with
    active_sessions := m.active_sessions.filter (fun t => t.id ≠ s1.id)
    finalize_calls := m.finalize_calls + 1
    completed_sessions := m.completed_sessions ++ [complete s1] }

/-- `SessionManager.tick` (src/session_manager.py lines 80–96): snapshot
the sessions whose cooldown expired, then finalize each in turn. -/
def tick (m : SessionManager) (current_time : ℚ) : SessionManager :=
  let sessions_to_finalize := m.active_sessions.filter
    (fun s => should_finalize s current_time m.config.cooldown_seconds)
  sessions_to_finalize.foldl finalize_session m

/-- The manager's external event alphabet: the three entry points the
detection loop drives. -/
inductive MEvent where
  | motion (t : ℚ)
  | noMotion (t : ℚ)
  | tickEv (t : ℚ)
deriving DecidableEq, Repr

/-- Apply one manager event. -/
def applyMEvent (m : SessionManager) : MEvent → SessionManager
  | MEvent.motion t => on_motion_detected m t
  | MEvent.noMotion t => on_no_motion m t
  | MEvent.tickEv t => tick m t

/-- Run a list of manager events from left to right. -/
def runMEvents (m : SessionManager) (evs : List MEvent) : SessionManager :=
  evs.foldl applyMEvent m

/-! ### Detector (src/detector.py)

`analyze_frame` first derives `raw_motion_score` and `brightness` from
the pixel buffer through cv2 (grayscale conversion, the MOG2 background
subtractor, `np.mean`); those computations live in an external C++
library outside this repository, so a frame is embedded as the pair of
values cv2 hands back.  Everything from line 87 of src/detector.py on —
the smoothing window, the hysteresis state machine and the brightness
delta — is modelled exactly. -/

/-- The two per-frame measurements the cv2 stage produces
(src/detector.py lines 78–85, 109). -/
structure FrameData where
  raw_motion_score : ℚ
  brightness : ℚ
deriving DecidableEq, Repr

/-- `Detector.SMOOTHING_WINDOW` (src/detector.py line 27). -/
def SMOOTHING_WINDOW : Nat := 15

/-- `Detector.HYSTERESIS_FRAMES` (src/detector.py line 31). -/
def HYSTERESIS_FRAMES : Nat := 30

/-- `DetectionResult` (src/detector.py lines 11–20). -/
structure DetectionResult where
  motion_detected : Bool
  light_event_detected : Bool
  motion_score : ℚ
  smoothed_motion_score : ℚ
  brightness : ℚ
  brightness_delta : ℚ
deriving DecidableEq, Repr

/-- `Detector` mutable state (src/detector.py lines 33–61); the two
thresholds are set at construction and never reassigned.
`motion_scores` is a `deque(maxlen=SMOOTHING_WINDOW)`, most recent
element last. -/
structure Detector where
  motion_threshold : ℚ
  light_jump_threshold : ℚ
  last_brightness : Option ℚ
  motion_scores : List ℚ
  motion_state : Bool
  low_motion_count : Nat
deriving DecidableEq, Repr

/-- Appending to a `deque(maxlen=SMOOTHING_WINDOW)`: the new element
goes on the right and the oldest is dropped once the window is full. -/
def pushScore (w : List ℚ) (x : ℚ) : List ℚ :=
  let w2 := w ++ [x]
  w2.drop (w2.length - SMOOTHING_WINDOW)

/-- The smoothed motion score `analyze_frame` computes for the current
frame (src/detector.py lines 87–91): the mean of the smoothing window
after the raw score is appended. -/
def smoothedOf (d : Detector) (f : FrameData) : ℚ :=
  (pushScore d.motion_scores f.raw_motion_score).sum /
    (((pushScore d.motion_scores f.raw_motion_score).length : ℚ))

/-- `Detector.analyze_frame` (src/detector.py lines 63–125), returning
the updated detector state together with the `DetectionResult`. -/
def analyze_frame (d : Detector) (f : FrameData) : Detector × DetectionResult :=
  let scores := pushScore d.motion_scores f.raw_motion_score
  let smoothed_score := smoothedOf d f
  let hyst : Bool × Nat :=
    if d.motion_threshold < smoothed_score then
      (true, 0)
    else if d.motion_state then
      let c := d.low_motion_count + 1
      (if HYSTERESIS_FRAMES ≤ c then false else true, c)
    else
      (d.motion_state, d.low_motion_count)
  let brightness := f.brightness
  let brightness_delta : ℚ :=
    match d.last_brightness with
    | none => 0
    | some b => |brightness - b|
  let light_event_detected : Bool := d.light_jump_threshold < brightness_delta
  ({ d with
      motion_scores := scores
      motion_state := hyst.1
      low_motion_count := hyst.2
      last_brightness := some brightness },
   { motion_detected := hyst.1
     light_event_detected := light_event_detected
     motion_score := f.raw_motion_score
     smoothed_motion_score := smoothed_score
     brightness := brightness
     brightness_delta := brightness_delta })

/-- The state part of `analyze_frame`. -/
def stepDetector (d : Detector) (f : FrameData) : Detector :=
  (analyze_frame d f).1

/-- Feed a list of frames through the detector. -/
def runDetector (d : Detector) (fs : List FrameData) : Detector :=
  fs.foldl stepDetector d

/-- The `smoothed_motion_score` reported for the `n`-th frame (0-based)
of a run starting from `d`; `0` past the end of the list. -/
def smoothedAt (d : Detector) (fs : List FrameData) (n : Nat) : ℚ :=
  match fs.get? n with
  | none => 0
  | some f => (analyze_frame (runDetector d (fs.take n)) f).2.smoothed_motion_score

/-! ### Rolling segment buffer (src/buffer.py)

The buffer's process supervision (ffmpeg launch, stderr monitor) is
subprocess glue outside the claims.  `get_clips` enumerates
`clip_*.ts` files on disk sorted by parsed index; a buffer directory
snapshot is embedded as that index-sorted list of `ClipInfo`s. -/

/-- `ClipInfo` (src/buffer.py lines 16–22); the path is an opaque name. -/
structure ClipInfo where
  name : String
  index : Nat
  timestamp : ℚ
deriving DecidableEq, Repr

/-- `HLSBuffer.SEGMENT_OVERFLOW_MARGIN` (src/buffer.py line 35). -/
def SEGMENT_OVERFLOW_MARGIN : Nat := 5

/-- The configuration and flag state of `HLSBuffer` that the pure clip
operations read (src/buffer.py lines 37–61). -/
structure HLSBuffer where
  segment_duration : ℚ
  max_segments : Nat
  overflow_warned : Bool
deriving DecidableEq, Repr

/-- `HLSBuffer._check_buffer_overflow` (src/buffer.py lines 187–210)
applied to the index-sorted clip list: returns the clips left on disk
after reclamation, the updated `_overflow_warned` flag, and whether the
overflow warning was emitted on this call. -/
def check_buffer_overflow (b : HLSBuffer) (clips : List ClipInfo) :
    List ClipInfo × Bool × Bool :=
  if b.max_segments + SEGMENT_OVERFLOW_MARGIN < clips.length then
    (clips.drop (clips.length - b.max_segments), true, !b.overflow_warned)
  else if clips.length ≤ b.max_segments then
    (clips, false, false)
  else
    (clips, b.overflow_warned, false)

/-- `HLSBuffer.get_preroll_clips` (src/buffer.py lines 216–236) given
the index-sorted clip list `get_clips()` returned.  Python's
`num_clips = int(seconds / self.segment_duration) + 1` truncates the
quotient toward zero, which for the non-negative durations the claims
quantify over is the floor; `clips[-num_clips:]` is the tail slice of
that size and the `len(clips) >= num_clips` guard returns the whole
list when it is shorter. -/
def get_preroll_clips (b : HLSBuffer) (clips : List ClipInfo) (seconds : ℚ) :
    List String :=
  if clips = [] then []
  else
    (if ⌊seconds / b.segment_duration⌋.toNat + 1 ≤ clips.length
      then clips.drop (clips.length - (⌊seconds / b.segment_duration⌋.toNat + 1))
      else clips).map (·.name)

/-! ## Session state machine: basic lemmas -/

theorem id_enter_cooldown (s : Session) (t : ℚ) : (enter_cooldown s t).id = s.id := by
  unfold enter_cooldown; split <;> rfl

theorem id_extend_recording (s : Session) (t : ℚ) : (extend_recording s t).id = s.id := by
  unfold extend_recording; split <;> rfl

theorem id_enter_finalizing (s : Session) : (enter_finalizing s).id = s.id := by
  unfold enter_finalizing; split <;> rfl

theorem id_complete (s : Session) : (complete s).id = s.id := rfl

theorem eta_session (s : Session) :
    (⟨s.id, s.state, s.start_time, s.last_activity_time, s.cooldown_start_time,
      s.clips⟩ : Session) = s := rfl

/-! ## C3 -/

/-- C3: `should_finalize(now, cooldown_seconds)` returns true iff the
session state is COOLDOWN and `now − cooldown_start_time ≥
cooldown_seconds` (the subtraction reading the value stored in the
option), and at exactly `now = cooldown_start_time + cooldown_seconds`
it returns true: the comparison is inclusive. -/
theorem C3_should_finalize_iff :
    (∀ (s : Session) (now cooldown_seconds : ℚ),
      should_finalize s now cooldown_seconds = true ↔
        (s.state = COOLDOWN ∧
          ∃ c, s.cooldown_start_time = some c ∧ now - c ≥ cooldown_seconds)) ∧
    (∀ (s : Session) (c cooldown_seconds : ℚ),
      s.state = COOLDOWN → s.cooldown_start_time = some c →
      should_finalize s (c + cooldown_seconds) cooldown_seconds = true) := by
  constructor
  · intro s now cs
    unfold should_finalize
    by_cases hst : s.state = COOLDOWN
    · cases hc : s.cooldown_start_time with
      | none => simp [hst, hc]
      | some c => simp [hst, hc]
    · simp [hst]
  · intro s c cs hst hc
    unfold should_finalize
    simp [hst, hc]

/-- Witness for C3 at a concrete cooldown session. -/
theorem C3_should_finalize_iff_witness :
    (⟨0, COOLDOWN, 100, 100, some 110, []⟩ : Session).state = COOLDOWN ∧
    (⟨0, COOLDOWN, 100, 100, some 110, []⟩ : Session).cooldown_start_time = some 110 ∧
    should_finalize ⟨0, COOLDOWN, 100, 100, some 110, []⟩ (110 + 5) 5 = true :=
  ⟨rfl, rfl, C3_should_finalize_iff.2 ⟨0, COOLDOWN, 100, 100, some 110, []⟩ 110 5 rfl rfl⟩

/-! ## C4 -/

/-- C4 counterexample: in the source, `complete()` assigns COMPLETED
unconditionally, so calling it on a RECORDING session changes the
state; and `extend_recording` assigns `last_activity_time`
unconditionally, so calling it on a COMPLETED session mutates that
field.  Both contradict the claim that unlisted transitions are no-ops
on the whole record. -/
theorem C4_unlisted_transitions_cex :
    ((⟨0, RECORDING, 0, 0, none, []⟩ : Session).state ≠ FINALIZING ∧
      (complete ⟨0, RECORDING, 0, 0, none, []⟩).state ≠
        (⟨0, RECORDING, 0, 0, none, []⟩ : Session).state) ∧
    ((⟨1, COMPLETED, 0, 0, none, []⟩ : Session).state = COMPLETED ∧
      extend_recording ⟨1, COMPLETED, 0, 0, none, []⟩ 5 ≠
        (⟨1, COMPLETED, 0, 0, none, []⟩ : Session)) := by
  refine ⟨⟨by decide, by decide⟩, ⟨rfl, ?_⟩⟩
  intro h
  have := congrArg Session.last_activity_time h
  simp [extend_recording] at this

/-- C4 amended: `enter_cooldown` outside RECORDING and
`enter_finalizing` outside COOLDOWN are no-ops on the whole record;
`extend_recording` on a FINALIZING or COMPLETED session changes only
`last_activity_time` (setting it to `t`); `complete()` sets the state
to COMPLETED from any state and changes no other field; once COMPLETED
the state never changes again, but `extend_recording` still updates
`last_activity_time`. -/
theorem C4_unlisted_transitions_amended :
    (∀ (s : Session) (t : ℚ), s.state ≠ RECORDING → enter_cooldown s t = s) ∧
    (∀ s : Session, s.state ≠ COOLDOWN → enter_finalizing s = s) ∧
    (∀ (s : Session) (t : ℚ), s.state = FINALIZING ∨ s.state = COMPLETED →
      extend_recording s t = { s with last_activity_time := t }) ∧
    (∀ s : Session, complete s = { s with state := COMPLETED }) ∧
    (∀ (s : Session) (t : ℚ), s.state = COMPLETED →
      enter_cooldown s t = s ∧ enter_finalizing s = s ∧ complete s = s ∧
      (extend_recording s t).state = COMPLETED ∧
      extend_recording s t = { s with last_activity_time := t }) := by
  refine ⟨?_, ?_, ?_, ?_, ?_⟩
  · intro s t h; unfold enter_cooldown; simp [h]
  · intro s h; unfold enter_finalizing; simp [h]
  · intro s t h
    unfold extend_recording
    rcases h with h | h <;> simp [h]
  · intro s; rfl
  · intro s t h
    refine ⟨?_, ?_, ?_, ?_, ?_⟩
    · unfold enter_cooldown; simp [h]
    · unfold enter_finalizing; simp [h]
    · cases s; simp_all [complete]
    · unfold extend_recording; simp [h]
    · unfold extend_recording; simp [h]

/-- Witness for C4 amended at a concrete COMPLETED session. -/
theorem C4_unlisted_transitions_amended_witness :
    (⟨2, COMPLETED, 0, 1, none, []⟩ : Session).state = COMPLETED ∧
    (enter_cooldown ⟨2, COMPLETED, 0, 1, none, []⟩ 5 = ⟨2, COMPLETED, 0, 1, none, []⟩ ∧
      enter_finalizing ⟨2, COMPLETED, 0, 1, none, []⟩ = ⟨2, COMPLETED, 0, 1, none, []⟩ ∧
      complete ⟨2, COMPLETED, 0, 1, none, []⟩ = ⟨2, COMPLETED, 0, 1, none, []⟩ ∧
      (extend_recording ⟨2, COMPLETED, 0, 1, none, []⟩ 5).state = COMPLETED ∧
      extend_recording ⟨2, COMPLETED, 0, 1, none, []⟩ 5 =
        { (⟨2, COMPLETED, 0, 1, none, []⟩ : Session) with last_activity_time := 5 }) :=
  ⟨rfl, C4_unlisted_transitions_amended.2.2.2.2 ⟨2, COMPLETED, 0, 1, none, []⟩ 5 rfl⟩

/-! ## C5 -/

/-- The invariant `enter_finalizing` actually maintains: outside the
terminal state, `cooldown_start_time` is set exactly in COOLDOWN and
FINALIZING (the source keeps the cooldown stamp when finalizing, and
the tests read it from the finalize callback). -/
def cooldownInv (s : Session) : Prop :=
  s.state = COMPLETED ∨
    (s.cooldown_start_time ≠ none ↔ (s.state = COOLDOWN ∨ s.state = FINALIZING))

theorem cooldownInv_step (s : Session) (op : SessOp) :
    cooldownInv s → cooldownInv (applySessOp s op) := by
  intro h
  cases op with
  | cooldown t =>
    unfold applySessOp enter_cooldown
    by_cases hst : s.state = RECORDING
    · simp only [hst, if_pos rfl]
      right; simp
    · simpa [hst] using h
  | extend t =>
    unfold applySessOp extend_recording
    by_cases hst : s.state = COOLDOWN
    · simp only [hst, if_pos rfl]
      right; simp
    · rcases h with h | h
      · left; simpa [hst] using h
      · right; simpa [hst] using h
  | finalizing =>
    unfold applySessOp enter_finalizing
    by_cases hst : s.state = COOLDOWN
    · simp only [hst, if_pos rfl]
      rcases h with h | h
      · exact absurd (hst ▸ h) (by simp)
      · right
        exact ⟨fun _ => Or.inr rfl, fun _ => h.2 (Or.inl hst)⟩
    · simpa [hst] using h
  | completeOp =>
    unfold applySessOp complete
    left; rfl

theorem cooldownInv_runSessOps (ops : List SessOp) (s : Session) :
    cooldownInv s → cooldownInv (runSessOps s ops) := by
  induction ops generalizing s with
  | nil => intro h; exact h
  | cons op ops ih =>
    intro h
    exact ih (applySessOp s op) (cooldownInv_step s op h)

/-- C5 counterexample: from the initial RECORDING session,
`enter_cooldown 1` then `enter_finalizing` reaches a FINALIZING session
whose `cooldown_start_time` is still `some 1` (the source does not
clear it), and `complete` from COOLDOWN reaches a COMPLETED session
with the stamp still set; both falsify "`cooldown_start_time` is
non-nil iff the state is COOLDOWN". -/
theorem C5_cooldown_iff_cex :
    ((runSessOps (mkSession 0 0 0) [SessOp.cooldown 1, SessOp.finalizing]).cooldown_start_time
        = some 1 ∧
      (runSessOps (mkSession 0 0 0) [SessOp.cooldown 1, SessOp.finalizing]).state = FINALIZING ∧
      ¬((runSessOps (mkSession 0 0 0)
          [SessOp.cooldown 1, SessOp.finalizing]).cooldown_start_time ≠ none ↔
        (runSessOps (mkSession 0 0 0)
          [SessOp.cooldown 1, SessOp.finalizing]).state = COOLDOWN)) ∧
    ((runSessOps (mkSession 0 0 0) [SessOp.cooldown 1, SessOp.completeOp]).cooldown_start_time
        = some 1 ∧
      (runSessOps (mkSession 0 0 0) [SessOp.cooldown 1, SessOp.completeOp]).state = COMPLETED ∧
      ¬((runSessOps (mkSession 0 0 0)
          [SessOp.cooldown 1, SessOp.completeOp]).cooldown_start_time ≠ none ↔
        (runSessOps (mkSession 0 0 0)
          [SessOp.cooldown 1, SessOp.completeOp]).state = COOLDOWN)) := by
  decide

/-- C5 amended: for every session reachable from the initial RECORDING
state by the four operations, as long as the session is not COMPLETED,
`cooldown_start_time` is non-nil iff the state is COOLDOWN or
FINALIZING; every single operation preserves this invariant. -/
theorem C5_cooldown_iff_amended (ops : List SessOp) (id : Nat) (t0 : ℚ)
    (h : (runSessOps (mkSession id t0 t0) ops).state ≠ COMPLETED) :
    (runSessOps (mkSession id t0 t0) ops).cooldown_start_time ≠ none ↔
      ((runSessOps (mkSession id t0 t0) ops).state = COOLDOWN ∨
        (runSessOps (mkSession id t0 t0) ops).state = FINALIZING) := by
  have hinit : cooldownInv (mkSession id t0 t0) := by
    right; simp [mkSession]
  rcases cooldownInv_runSessOps ops (mkSession id t0 t0) hinit with hc | hc
  · exact absurd hc h
  · exact hc

/-- Witness for C5 amended on the cooldown→finalizing run. -/
theorem C5_cooldown_iff_amended_witness :
    (runSessOps (mkSession 0 0 0) [SessOp.cooldown 1, SessOp.finalizing]).state ≠ COMPLETED ∧
    ((runSessOps (mkSession 0 0 0)
        [SessOp.cooldown 1, SessOp.finalizing]).cooldown_start_time ≠ none ↔
      ((runSessOps (mkSession 0 0 0) [SessOp.cooldown 1, SessOp.finalizing]).state = COOLDOWN ∨
        (runSessOps (mkSession 0 0 0)
          [SessOp.cooldown 1, SessOp.finalizing]).state = FINALIZING)) :=
  ⟨by decide, C5_cooldown_iff_amended [SessOp.cooldown 1, SessOp.finalizing] 0 0 (by decide)⟩

/-! ## C8 -/

/-- The concrete buffer and three-clip directory used for the C8
counterexample and witness: `segment_duration = 5`. -/
def bW : HLSBuffer := ⟨5, 20, false⟩

/-- Three index-sorted clips for the C8 counterexample and witness. -/
def clipsW : List ClipInfo :=
  [⟨"clip_0000.ts", 0, 0⟩, ⟨"clip_0001.ts", 1, 5⟩, ⟨"clip_0002.ts", 2, 10⟩]

/-- C8 counterexample: with `segment_duration = 5`, `seconds = 7` and a
buffer of three clips, the source computes `int(7 / 5) + 1 = 2`
pre-roll clips, not the `⌈7 / 5⌉ + 1 = 3` the claim states. -/
theorem C8_preroll_cex :
    (get_preroll_clips bW clipsW 7).length ≠
      min (⌈(7 : ℚ) / bW.segment_duration⌉.toNat + 1) clipsW.length := by
  have hd : bW.segment_duration = 5 := rfl
  have hceil : ⌈(7 : ℚ) / bW.segment_duration⌉ = 2 := by
    rw [hd, Int.ceil_eq_iff] ; norm_num
  have hfloor : ⌊(7 : ℚ) / bW.segment_duration⌋ = 1 := by
    rw [hd]; norm_num
  have hlen : (get_preroll_clips bW clipsW 7).length = 2 := by
    rw [get_preroll_clips, if_neg (by simp [clipsW]), hfloor]
    decide
  rw [hlen, hceil]
  decide

/-- C8 amended: for every buffer and non-negative duration,
`get_preroll_clips(seconds)` returns the empty list when the buffer
holds no clips, and otherwise the tail slice of the index-ordered clip
list of length `⌊seconds / segment_duration⌋ + 1` (floor, matching the
source's `int(...)` truncation of a non-negative quotient), capped at
the list's length. -/
theorem C8_preroll_amended (b : HLSBuffer) (clips : List ClipInfo) (seconds : ℚ)
    (_hsec : 0 ≤ seconds) :
    get_preroll_clips b clips seconds =
      (clips.drop
        (clips.length - (⌊seconds / b.segment_duration⌋.toNat + 1))).map (·.name) ∧
    (clips = [] → get_preroll_clips b clips seconds = []) ∧
    (get_preroll_clips b clips seconds).length =
      min (⌊seconds / b.segment_duration⌋.toNat + 1) clips.length := by
  by_cases hc : clips = []
  · subst hc; simp [get_preroll_clips]
  · rw [get_preroll_clips, if_neg hc]
    by_cases hlen : ⌊seconds / b.segment_duration⌋.toNat + 1 ≤ clips.length
    · rw [if_pos hlen]
      refine ⟨rfl, fun h => absurd h hc, ?_⟩
      rw [List.length_map, List.length_drop]
      omega
    · rw [if_neg hlen]
      refine ⟨?_, fun h => absurd h hc, ?_⟩
      · have h0 : clips.length - (⌊seconds / b.segment_duration⌋.toNat + 1) = 0 := by omega
        rw [h0, List.drop_zero]
      · rw [List.length_map]; omega

/-- Witness for C8 amended: three clips, `seconds = 7`, duration 5. -/
theorem C8_preroll_amended_witness :
    (0 : ℚ) ≤ 7 ∧
    get_preroll_clips bW clipsW 7 =
      (clipsW.drop
        (clipsW.length - (⌊(7 : ℚ) / bW.segment_duration⌋.toNat + 1))).map (·.name) ∧
    (get_preroll_clips bW clipsW 7).length =
      min (⌊(7 : ℚ) / bW.segment_duration⌋.toNat + 1) clipsW.length :=
  ⟨by norm_num,
   (C8_preroll_amended bW clipsW 7 (by norm_num)).1,
   (C8_preroll_amended bW clipsW 7 (by norm_num)).2.2⟩

/-! ## C9 -/

/-- C9: when `get_clips()` observes `count > max_segments +
SEGMENT_OVERFLOW_MARGIN`, exactly the oldest `count − max_segments`
segments are removed leaving `max_segments` on disk, the warned flag is
set, and the warning is emitted iff it was not already warned; below
the threshold nothing is removed, no warning is emitted, and a set
warned flag is cleared exactly when the observed count is
`≤ max_segments`. -/
theorem C9_overflow_policy (b : HLSBuffer) (clips : List ClipInfo) :
    (b.max_segments + SEGMENT_OVERFLOW_MARGIN < clips.length →
      (check_buffer_overflow b clips).1 = clips.drop (clips.length - b.max_segments) ∧
      (check_buffer_overflow b clips).1.length = b.max_segments ∧
      (check_buffer_overflow b clips).2.1 = true ∧
      ((check_buffer_overflow b clips).2.2 = true ↔ b.overflow_warned = false)) ∧
    (clips.length ≤ b.max_segments + SEGMENT_OVERFLOW_MARGIN →
      (check_buffer_overflow b clips).1 = clips ∧
      (check_buffer_overflow b clips).2.2 = false ∧
      (b.overflow_warned = true →
        ((check_buffer_overflow b clips).2.1 = false ↔
          clips.length ≤ b.max_segments))) := by
  constructor
  · intro hover
    rw [check_buffer_overflow, if_pos hover]
    refine ⟨rfl, ?_, rfl, ?_⟩
    · show (clips.drop (clips.length - b.max_segments)).length = b.max_segments
      rw [List.length_drop]
      have hmargin : (0:Nat) < SEGMENT_OVERFLOW_MARGIN := by decide
      omega
    · show (!b.overflow_warned) = true ↔ b.overflow_warned = false
      cases b.overflow_warned <;> simp
  · intro hunder
    rw [check_buffer_overflow,
      if_neg (by omega : ¬ b.max_segments + SEGMENT_OVERFLOW_MARGIN < clips.length)]
    by_cases hlow : clips.length ≤ b.max_segments
    · rw [if_pos hlow]
      exact ⟨rfl, rfl, fun _ => by simp [hlow]⟩
    · rw [if_neg hlow]
      exact ⟨rfl, rfl, fun hw => by simp [hw, hlow]⟩

/-- A ten-clip directory snapshot, for the C9 witness overflow branch. -/
def clipsTen : List ClipInfo :=
  [⟨"c0", 0, 0⟩, ⟨"c1", 1, 0⟩, ⟨"c2", 2, 0⟩, ⟨"c3", 3, 0⟩, ⟨"c4", 4, 0⟩,
   ⟨"c5", 5, 0⟩, ⟨"c6", 6, 0⟩, ⟨"c7", 7, 0⟩, ⟨"c8", 8, 0⟩, ⟨"c9", 9, 0⟩]

/-- A three-clip directory snapshot, for the C9 witness reset branch. -/
def clipsThree : List ClipInfo := [⟨"c0", 0, 0⟩, ⟨"c1", 1, 0⟩, ⟨"c2", 2, 0⟩]

/-- Witness for C9 at both branches: 10 clips against `max_segments =
3` (overflow), then 3 clips against `max_segments = 3` with the flag
set (reset). -/
theorem C9_overflow_policy_witness :
    ((⟨5, 3, false⟩ : HLSBuffer).max_segments + SEGMENT_OVERFLOW_MARGIN <
        clipsTen.length ∧
      (check_buffer_overflow ⟨5, 3, false⟩ clipsTen).1.length =
        (⟨5, 3, false⟩ : HLSBuffer).max_segments) ∧
    (clipsThree.length ≤
        (⟨5, 3, true⟩ : HLSBuffer).max_segments + SEGMENT_OVERFLOW_MARGIN ∧
      ((⟨5, 3, true⟩ : HLSBuffer).overflow_warned = true →
        ((check_buffer_overflow ⟨5, 3, true⟩ clipsThree).2.1 = false ↔
          clipsThree.length ≤ (⟨5, 3, true⟩ : HLSBuffer).max_segments))) := by
  refine ⟨⟨?_, ?_⟩, ?_, ?_⟩
  · decide
  · exact ((C9_overflow_policy ⟨5, 3, false⟩ clipsTen).1 (by decide)).2.1
  · decide
  · exact ((C9_overflow_policy ⟨5, 3, true⟩ clipsThree).2 (by decide)).2.2

/-! ## C6 -/

/-- C6: `on_no_motion(now)` moves exactly the sessions currently in
RECORDING to COOLDOWN with `cooldown_start_time = now`, leaves every
other session (in particular those already in COOLDOWN) completely
unchanged, and touches nothing else in the manager. -/
theorem C6_on_no_motion (m : SessionManager) (now : ℚ) :
    ((on_no_motion m now).completed_sessions = m.completed_sessions ∧
      (on_no_motion m now).start_calls = m.start_calls ∧
      (on_no_motion m now).finalize_calls = m.finalize_calls ∧
      (on_no_motion m now).next_id = m.next_id ∧
      (on_no_motion m now).active_sessions.length = m.active_sessions.length) ∧
    ∀ (n : Nat) (s : Session), m.active_sessions.get? n = some s →
      (s.state = RECORDING →
        (on_no_motion m now).active_sessions.get? n =
          some { s with state := COOLDOWN, cooldown_start_time := some now }) ∧
      (s.state ≠ RECORDING →
        (on_no_motion m now).active_sessions.get? n = some s) := by
  refine ⟨⟨rfl, rfl, rfl, rfl, by simp [on_no_motion]⟩, ?_⟩
  intro n s hs
  have hmap : (on_no_motion m now).active_sessions.get? n =
      some (if s.state = RECORDING then enter_cooldown s now else s) := by
    have hact : (on_no_motion m now).active_sessions =
        m.active_sessions.map (fun s =>
          if s.state = RECORDING then enter_cooldown s now else s) := rfl
    rw [hact, List.get?_map, hs]
    rfl
  constructor
  · intro hrec
    rw [hmap, if_pos hrec, enter_cooldown, if_pos hrec]
  · intro hrec
    rw [hmap, if_neg hrec]

/-- The manager state used to witness C6 and C2: one COOLDOWN session
in the active map. -/
def mgrW : SessionManager :=
  { config := ⟨10, 10⟩
    active_sessions := [⟨0, COOLDOWN, 0, 0, some 3, []⟩]
    completed_sessions := []
    next_id := 1
    start_calls := 1
    finalize_calls := 0 }

/-- The manager state used to witness C6: one RECORDING session. -/
def mgrR : SessionManager :=
  { config := ⟨10, 10⟩
    active_sessions := [⟨0, RECORDING, 0, 0, none, []⟩]
    completed_sessions := []
    next_id := 1
    start_calls := 1
    finalize_calls := 0 }

/-- Witness for C6: a RECORDING session moves to COOLDOWN stamped with
`now = 7`, and a COOLDOWN session is left untouched. -/
theorem C6_on_no_motion_witness :
    (mgrR.active_sessions.get? 0 = some ⟨0, RECORDING, 0, 0, none, []⟩ ∧
      (⟨0, RECORDING, 0, 0, none, []⟩ : Session).state = RECORDING ∧
      (on_no_motion mgrR 7).active_sessions.get? 0 =
        some { (⟨0, RECORDING, 0, 0, none, []⟩ : Session) with
                state := COOLDOWN, cooldown_start_time := some (7 : ℚ) }) ∧
    (mgrW.active_sessions.get? 0 = some ⟨0, COOLDOWN, 0, 0, some 3, []⟩ ∧
      (⟨0, COOLDOWN, 0, 0, some 3, []⟩ : Session).state ≠ RECORDING ∧
      (on_no_motion mgrW 7).active_sessions.get? 0 =
        some ⟨0, COOLDOWN, 0, 0, some 3, []⟩) :=
  ⟨⟨rfl, rfl,
    ((C6_on_no_motion mgrR 7).2 0 ⟨0, RECORDING, 0, 0, none, []⟩ rfl).1 rfl⟩,
   ⟨rfl, by decide,
    ((C6_on_no_motion mgrW 7).2 0 ⟨0, COOLDOWN, 0, 0, some 3, []⟩ rfl).2 (by decide)⟩⟩

/-! ## C2 -/

/-- C2: when the active map is non-empty, `on_motion_detected(now)`
applies `extend_recording(now)` to every active session — each COOLDOWN
session returning to RECORDING with its cooldown stamp cleared — and
starts no new session; when the active map is empty it creates exactly
one new RECORDING session with `start_time = last_activity_time = now`
and fires `on_session_start` once. -/
theorem C2_on_motion (m : SessionManager) (now : ℚ) :
    (m.active_sessions ≠ [] →
      ((on_motion_detected m now).active_sessions =
          m.active_sessions.map (fun s => extend_recording s now) ∧
        (on_motion_detected m now).active_sessions.length =
          m.active_sessions.length ∧
        (on_motion_detected m now).start_calls = m.start_calls ∧
        (on_motion_detected m now).finalize_calls = m.finalize_calls ∧
        (on_motion_detected m now).completed_sessions = m.completed_sessions ∧
        (on_motion_detected m now).next_id = m.next_id) ∧
      (∀ s : Session, s.state = COOLDOWN →
        extend_recording s now =
          { s with state := RECORDING, cooldown_start_time := none,
                   last_activity_time := now })) ∧
    (m.active_sessions = [] →
      (on_motion_detected m now).active_sessions = [mkSession m.next_id now now] ∧
      (on_motion_detected m now).start_calls = m.start_calls + 1 ∧
      (on_motion_detected m now).finalize_calls = m.finalize_calls ∧
      (on_motion_detected m now).completed_sessions = m.completed_sessions ∧
      (mkSession m.next_id now now).state = RECORDING ∧
      (mkSession m.next_id now now).start_time = now ∧
      (mkSession m.next_id now now).last_activity_time = now ∧
      (mkSession m.next_id now now).cooldown_start_time = none) := by
  constructor
  · intro hne
    constructor
    · rw [on_motion_detected, if_pos hne]
      exact ⟨rfl, by simp, rfl, rfl, rfl, rfl⟩
    · intro s hs
      rw [extend_recording, if_pos hs]
  · intro hemp
    rw [on_motion_detected, if_neg (by simp [hemp])]
    rw [start_new_session, hemp]
    exact ⟨rfl, rfl, rfl, rfl, rfl, rfl, rfl, rfl⟩

/-- Witness for C2: extending the one-cooldown-session manager at
`now = 7`, and starting a fresh session on the empty manager. -/
theorem C2_on_motion_witness :
    (mgrW.active_sessions ≠ [] ∧
      (on_motion_detected mgrW 7).active_sessions =
        mgrW.active_sessions.map (fun s => extend_recording s 7) ∧
      (on_motion_detected mgrW 7).start_calls = mgrW.start_calls ∧
      (⟨0, COOLDOWN, 0, 0, some 3, []⟩ : Session).state = COOLDOWN ∧
      extend_recording ⟨0, COOLDOWN, 0, 0, some 3, []⟩ 7 =
        { (⟨0, COOLDOWN, 0, 0, some 3, []⟩ : Session) with
            state := RECORDING, cooldown_start_time := none,
            last_activity_time := (7 : ℚ) }) ∧
    ((mkManager ⟨10, 10⟩).active_sessions = [] ∧
      (on_motion_detected (mkManager ⟨10, 10⟩) 7).active_sessions =
        [mkSession (mkManager ⟨10, 10⟩).next_id 7 7] ∧
      (on_motion_detected (mkManager ⟨10, 10⟩) 7).start_calls =
        (mkManager ⟨10, 10⟩).start_calls + 1) :=
  ⟨⟨by decide,
    ((C2_on_motion mgrW 7).1 (by decide)).1.1,
    ((C2_on_motion mgrW 7).1 (by decide)).1.2.2.1,
    rfl,
    ((C2_on_motion mgrW 7).1 (by decide)).2 ⟨0, COOLDOWN, 0, 0, some 3, []⟩ rfl⟩,
   ⟨rfl,
    ((C2_on_motion (mkManager ⟨10, 10⟩) 7).2 rfl).1,
    ((C2_on_motion (mkManager ⟨10, 10⟩) 7).2 rfl).2.1⟩⟩

/-! ## Manager reachability invariant

The facts every manager state reachable from `mkManager` satisfies:
the `on_session_start` count exceeds the `on_session_finalize` count by
exactly the number of active sessions, at most one session is active,
active sessions are RECORDING (stamp clear) or COOLDOWN (stamp set),
ids are pairwise distinct and below `next_id`, and completed sessions
are COMPLETED. -/

/-- Reachable-state invariant of the session manager. -/
def managerInv (m : SessionManager) : Prop :=
  m.start_calls = m.finalize_calls + m.active_sessions.length ∧
  m.active_sessions.length ≤ 1 ∧
  (∀ s ∈ m.active_sessions,
    (s.state = RECORDING ∧ s.cooldown_start_time = none) ∨
      (s.state = COOLDOWN ∧ s.cooldown_start_time ≠ none)) ∧
  ((m.active_sessions ++ m.completed_sessions).map Session.id).Nodup ∧
  (∀ s ∈ m.active_sessions ++ m.completed_sessions, s.id < m.next_id) ∧
  (∀ s ∈ m.completed_sessions, s.state = COMPLETED)

theorem managerInv_mkManager (cfg : SessionManagerConfig) :
    managerInv (mkManager cfg) := by
  refine ⟨rfl, by simp [mkManager], ?_, ?_, ?_, ?_⟩ <;> simp [mkManager]

theorem managerInv_on_motion (m : SessionManager) (now : ℚ)
    (h : managerInv m) : managerInv (on_motion_detected m now) := by
  obtain ⟨hcnt, hlen, hstates, hnodup, hids, hcomp⟩ := h
  by_cases hne : m.active_sessions = []
  · rw [on_motion_detected, if_neg (by simp [hne]), start_new_session]
    refine ⟨?_, ?_, ?_, ?_, ?_, ?_⟩
    · simp [hne] at hcnt ⊢
      omega
    · simp [hne]
    · intro s hs
      simp [hne, mkSession] at hs
      subst hs
      left; exact ⟨rfl, rfl⟩
    · simp only [hne, List.nil_append] at hnodup ⊢
      rw [List.map_append]
      have : ((mkSession m.next_id now now).id :: m.completed_sessions.map Session.id).Nodup := by
        refine List.nodup_cons.mpr ⟨?_, hnodup⟩
        intro hmem
        rw [List.mem_map] at hmem
        obtain ⟨u, hu, hid⟩ := hmem
        have := hids u (by simp [hne, hu])
        simp [mkSession] at hid
        omega
      simpa using this
    · intro s hs
      simp only [hne, List.nil_append] at hids
      simp [hne, mkSession] at hs
      rcases hs with hs | hs
      · subst hs; simp [mkSession]
      · have := hids s hs
        show s.id < m.next_id + 1
        omega
    · exact hcomp
  · rw [on_motion_detected, if_pos hne]
    have hidmap : (m.active_sessions.map (fun s => extend_recording s now)).map Session.id =
        m.active_sessions.map Session.id := by
      rw [List.map_map]
      exact List.map_congr_left (fun s _ => id_extend_recording s now)
    refine ⟨?_, ?_, ?_, ?_, ?_, ?_⟩
    · simpa using hcnt
    · simpa using hlen
    · intro s hs
      rw [List.mem_map] at hs
      obtain ⟨u, hu, hsu⟩ := hs
      subst hsu
      rcases hstates u hu with ⟨h1, h2⟩ | ⟨h1, h2⟩
      · left
        rw [extend_recording, if_neg (by rw [h1]; exact fun hh => nomatch hh)]
        exact ⟨h1, h2⟩
      · left
        rw [extend_recording, if_pos h1]
        exact ⟨rfl, rfl⟩
    · rw [List.map_append, hidmap, ← List.map_append]
      exact hnodup
    · intro s hs
      rw [List.mem_append] at hs
      rcases hs with hs | hs
      · rw [List.mem_map] at hs
        obtain ⟨u, hu, hsu⟩ := hs
        subst hsu
        rw [id_extend_recording]
        exact hids u (List.mem_append.mpr (Or.inl hu))
      · exact hids s (List.mem_append.mpr (Or.inr hs))
    · exact hcomp

theorem managerInv_on_no_motion (m : SessionManager) (now : ℚ)
    (h : managerInv m) : managerInv (on_no_motion m now) := by
  obtain ⟨hcnt, hlen, hstates, hnodup, hids, hcomp⟩ := h
  have hact : (on_no_motion m now).active_sessions =
      m.active_sessions.map (fun s =>
        if s.state = RECORDING then enter_cooldown s now else s) := rfl
  have hidmap : (on_no_motion m now).active_sessions.map Session.id =
      m.active_sessions.map Session.id := by
    rw [hact, List.map_map]
    refine List.map_congr_left (fun s _ => ?_)
    show (if s.state = RECORDING then enter_cooldown s now else s).id = s.id
    split
    · exact id_enter_cooldown s now
    · rfl
  refine ⟨?_, ?_, ?_, ?_, ?_, ?_⟩
  · simpa [hact] using hcnt
  · simpa [hact] using hlen
  · intro s hs
    rw [hact, List.mem_map] at hs
    obtain ⟨u, hu, hsu⟩ := hs
    subst hsu
    rcases hstates u hu with ⟨h1, _⟩ | ⟨h1, h2⟩
    · right
      rw [if_pos h1, enter_cooldown, if_pos h1]
      exact ⟨rfl, by simp⟩
    · right
      rw [if_neg (by rw [h1]; exact fun hh => nomatch hh)]
      exact ⟨h1, h2⟩
  · show (((on_no_motion m now).active_sessions ++ m.completed_sessions).map Session.id).Nodup
    rw [List.map_append, hidmap, ← List.map_append]
    exact hnodup
  · intro s hs
    rw [List.mem_append] at hs
    rcases hs with hs | hs
    · rw [hact, List.mem_map] at hs
      obtain ⟨u, hu, hsu⟩ := hs
      subst hsu
      have hid : (if u.state = RECORDING then enter_cooldown u now else u).id = u.id := by
        split
        · exact id_enter_cooldown u now
        · rfl
      rw [hid]
      exact hids u (List.mem_append.mpr (Or.inl hu))
    · exact hids s (List.mem_append.mpr (Or.inr hs))
  · exact hcomp

/-- Sequentially finalizing a snapshot list of sessions: the active map
loses exactly the snapshot ids, the completed list gains the finalized
snapshot in order, and the finalize counter advances by the snapshot
length.  No distinctness is needed for this characterization. -/
theorem foldl_finalize (l : List Session) (m : SessionManager) :
    (l.foldl finalize_session m).active_sessions =
      m.active_sessions.filter (fun t => decide (t.id ∉ l.map Session.id)) ∧
    (l.foldl finalize_session m).completed_sessions =
      m.completed_sessions ++ l.map (fun s => complete (enter_finalizing s)) ∧
    (l.foldl finalize_session m).finalize_calls = m.finalize_calls + l.length ∧
    (l.foldl finalize_session m).start_calls = m.start_calls ∧
    (l.foldl finalize_session m).config = m.config ∧
    (l.foldl finalize_session m).next_id = m.next_id := by
  induction l generalizing m with
  | nil =>
    refine ⟨?_, by simp, rfl, rfl, rfl, rfl⟩
    have : ∀ t : Session, (decide (t.id ∉ ([] : List Session).map Session.id)) = true := by
      intro t; simp
    rw [List.filter_eq_self.mpr (fun a _ => this a)]
    rfl
  | cons s l ih =>
    rw [List.foldl_cons]
    obtain ⟨ha, hc, hf, hst, hcfg, hnid⟩ := ih (finalize_session m s)
    have hfin_act : (finalize_session m s).active_sessions =
        m.active_sessions.filter (fun t => decide (t.id ≠ s.id)) := by
      rw [finalize_session]
      have : (enter_finalizing s).id = s.id := id_enter_finalizing s
      simp only [this]
    have hfin_comp : (finalize_session m s).completed_sessions =
        m.completed_sessions ++ [complete (enter_finalizing s)] := rfl
    refine ⟨?_, ?_, ?_, ?_, ?_, ?_⟩
    · rw [ha, hfin_act, List.filter_filter]
      refine List.filter_congr (fun t _ => ?_)
      by_cases h1 : t.id = s.id <;> by_cases h2 : t.id ∈ l.map Session.id <;>
        simp [h1, h2]
    · rw [hc, hfin_comp, List.append_assoc]
      rfl
    · rw [hf]
      show m.finalize_calls + 1 + l.length = m.finalize_calls + (s :: l).length
      rw [List.length_cons]
      omega
    · exact hst
    · exact hcfg
    · exact hnid

/-- `tick` on a manager whose active ids are distinct: exactly the
sessions whose cooldown expired are finalized, in map order. -/
theorem tick_spec (m : SessionManager) (now : ℚ)
    (hnodup : (m.active_sessions.map Session.id).Nodup) :
    (tick m now).active_sessions =
      m.active_sessions.filter
        (fun s => !(should_finalize s now m.config.cooldown_seconds)) ∧
    (tick m now).completed_sessions =
      m.completed_sessions ++
        (m.active_sessions.filter
          (fun s => should_finalize s now m.config.cooldown_seconds)).map
            (fun s => complete (enter_finalizing s)) ∧
    (tick m now).finalize_calls =
      m.finalize_calls +
        (m.active_sessions.filter
          (fun s => should_finalize s now m.config.cooldown_seconds)).length ∧
    (tick m now).start_calls = m.start_calls ∧
    (tick m now).config = m.config ∧
    (tick m now).next_id = m.next_id := by
  obtain ⟨ha, hc, hf, hst, hcfg, hnid⟩ := foldl_finalize
    (m.active_sessions.filter
      (fun s => should_finalize s now m.config.cooldown_seconds)) m
  have htick : tick m now =
      (m.active_sessions.filter
        (fun s => should_finalize s now m.config.cooldown_seconds)).foldl
        finalize_session m := rfl
  rw [htick, ha, hc, hf, hst, hcfg, hnid]
  refine ⟨?_, rfl, rfl, rfl, rfl, rfl⟩
  refine List.filter_congr (fun t ht => ?_)
  by_cases hp : should_finalize t now m.config.cooldown_seconds = true
  · have : t.id ∈ (m.active_sessions.filter
        (fun s => should_finalize s now m.config.cooldown_seconds)).map Session.id :=
      List.mem_map.mpr ⟨t, List.mem_filter.mpr ⟨ht, hp⟩, rfl⟩
    simp [this, hp]
  · have : t.id ∉ (m.active_sessions.filter
        (fun s => should_finalize s now m.config.cooldown_seconds)).map Session.id := by
      intro hmem
      rw [List.mem_map] at hmem
      obtain ⟨u, hu, hid⟩ := hmem
      rw [List.mem_filter] at hu
      have := List.inj_on_of_nodup_map hnodup hu.1 ht hid
      subst this
      exact hp hu.2
    simp [this, hp]

theorem managerInv_tick (m : SessionManager) (now : ℚ)
    (h : managerInv m) : managerInv (tick m now) := by
  obtain ⟨hcnt, hlen, hstates, hnodup, hids, hcomp⟩ := h
  have hnodup_act : (m.active_sessions.map Session.id).Nodup := by
    rw [List.map_append] at hnodup
    exact (List.nodup_append.mp hnodup).1
  obtain ⟨ha, hc, hf, hst, hcfg, hnid⟩ := tick_spec m now hnodup_act
  have hperm : List.Perm
      ((m.active_sessions.filter
          (fun s => !(should_finalize s now m.config.cooldown_seconds))) ++
        (m.active_sessions.filter
          (fun s => should_finalize s now m.config.cooldown_seconds)))
      m.active_sessions := by
    have := m.active_sessions.filter_append_perm
      (fun s => !(should_finalize s now m.config.cooldown_seconds))
    simpa using this
  have hlensplit :
      (m.active_sessions.filter
          (fun s => !(should_finalize s now m.config.cooldown_seconds))).length +
        (m.active_sessions.filter
          (fun s => should_finalize s now m.config.cooldown_seconds)).length =
      m.active_sessions.length := by
    have := hperm.length_eq
    simpa using this
  refine ⟨?_, ?_, ?_, ?_, ?_, ?_⟩
  · rw [hst, ha, hf, hcnt]
    omega
  · rw [ha]
    exact le_trans (m.active_sessions.length_filter_le _) hlen
  · intro s hs
    rw [ha] at hs
    exact hstates s (List.mem_of_mem_filter hs)
  · rw [ha, hc]
    have hidcomp : ((m.active_sessions.filter
        (fun s => should_finalize s now m.config.cooldown_seconds)).map
          (fun s => complete (enter_finalizing s))).map Session.id =
        (m.active_sessions.filter
          (fun s => should_finalize s now m.config.cooldown_seconds)).map Session.id := by
      rw [List.map_map]
      refine List.map_congr_left (fun s _ => ?_)
      show (complete (enter_finalizing s)).id = s.id
      rw [id_complete, id_enter_finalizing]
    rw [List.map_append, List.map_append, hidcomp]
    rw [List.map_append] at hnodup
    set A := m.active_sessions.map Session.id with hA
    set C := m.completed_sessions.map Session.id with hC
    set A2 := (m.active_sessions.filter
      (fun s => !(should_finalize s now m.config.cooldown_seconds))).map Session.id with hA2
    set P := (m.active_sessions.filter
      (fun s => should_finalize s now m.config.cooldown_seconds)).map Session.id with hP
    have hpermids : List.Perm (A2 ++ P) A := by
      have := hperm.map Session.id
      rw [hA, hA2, hP]
      simpa using this
    have e1 : List.Perm (A ++ C) ((A2 ++ P) ++ C) := hpermids.symm.append_right C
    rw [List.append_assoc] at e1
    have e2 : List.Perm (P ++ C) (C ++ P) := List.perm_append_comm
    have e3 : List.Perm (A2 ++ (P ++ C)) (A2 ++ (C ++ P)) := e2.append_left A2
    exact (e1.trans e3).nodup hnodup
  · intro s hs
    rw [hnid]
    rw [List.mem_append, ha, hc] at hs
    rcases hs with hs | hs
    · exact hids s (List.mem_append.mpr (Or.inl (List.mem_of_mem_filter hs)))
    · rw [List.mem_append] at hs
      rcases hs with hs | hs
      · exact hids s (List.mem_append.mpr (Or.inr hs))
      · rw [List.mem_map] at hs
        obtain ⟨u, hu, hsu⟩ := hs
        subst hsu
        rw [id_complete, id_enter_finalizing]
        exact hids u (List.mem_append.mpr (Or.inl (List.mem_of_mem_filter hu)))
  · intro s hs
    rw [hc, List.mem_append] at hs
    rcases hs with hs | hs
    · exact hcomp s hs
    · rw [List.mem_map] at hs
      obtain ⟨u, _, hsu⟩ := hs
      subst hsu
      rfl

theorem config_applyMEvent (m : SessionManager) (e : MEvent) :
    (applyMEvent m e).config = m.config := by
  cases e with
  | motion t =>
    show (on_motion_detected m t).config = m.config
    rw [on_motion_detected]
    split
    · rfl
    · rfl
  | noMotion t => rfl
  | tickEv t => exact (foldl_finalize _ m).2.2.2.2.1

theorem config_runMEvents (evs : List MEvent) (m : SessionManager) :
    (runMEvents m evs).config = m.config := by
  induction evs generalizing m with
  | nil => rfl
  | cons e evs ih =>
    show (runMEvents (applyMEvent m e) evs).config = m.config
    rw [ih (applyMEvent m e), config_applyMEvent]

theorem managerInv_applyMEvent (m : SessionManager) (e : MEvent)
    (h : managerInv m) : managerInv (applyMEvent m e) := by
  cases e with
  | motion t => exact managerInv_on_motion m t h
  | noMotion t => exact managerInv_on_no_motion m t h
  | tickEv t => exact managerInv_tick m t h

theorem managerInv_runMEvents (evs : List MEvent) (m : SessionManager)
    (h : managerInv m) : managerInv (runMEvents m evs) := by
  induction evs generalizing m with
  | nil => exact h
  | cons e evs ih =>
    exact ih (applyMEvent m e) (managerInv_applyMEvent m e h)

/-! ## C10 -/

/-- C10: in every manager state reachable from a fresh manager by any
sequence of `on_motion_detected`, `on_no_motion` and `tick` calls, the
active map holds at most one session. -/
theorem C10_single_active (cfg : SessionManagerConfig) (evs : List MEvent) :
    (runMEvents (mkManager cfg) evs).active_sessions.length ≤ 1 :=
  (managerInv_runMEvents evs (mkManager cfg) (managerInv_mkManager cfg)).2.1

/-! ## C1 -/

/-- C1 counterexample: after the single event `on_motion_detected(0)`
the one active session is still RECORDING, so no `tick`, however late,
finalizes it — the claim's "`now_large` at least `cooldown_seconds`
past every cooldown start" is vacuously satisfied (there is no cooldown
start) yet the start count 1 differs from the finalize count 0. -/
theorem C1_start_finalize_cex :
    (∀ s ∈ (runMEvents (mkManager ⟨10, 10⟩) [MEvent.motion 0]).active_sessions,
      ∀ c : ℚ, s.cooldown_start_time = some c → c + (10 : ℚ) ≤ 1000000) ∧
    (tick (runMEvents (mkManager ⟨10, 10⟩) [MEvent.motion 0]) 1000000).start_calls ≠
      (tick (runMEvents (mkManager ⟨10, 10⟩) [MEvent.motion 0]) 1000000).finalize_calls := by
  constructor
  · intro s hs c hc
    have hact : (runMEvents (mkManager ⟨10, 10⟩) [MEvent.motion 0]).active_sessions =
        [mkSession 0 0 0] := rfl
    rw [hact, List.mem_singleton] at hs
    subst hs
    exact absurd hc (by simp [mkSession])
  · decide

/-- C1 amended: for every event sequence, if the run is closed by an
`on_no_motion(t)` and then a final `tick(T)` with `T` at least
`cooldown_seconds` past every cooldown start of the then-active
sessions, the number of `on_session_start` invocations equals the
number of `on_session_finalize` invocations, and every completed
session appears exactly once (by id) in the completed list, is in
state COMPLETED, and shares no id with any remaining active session. -/
theorem C1_start_finalize_amended (cfg : SessionManagerConfig) (evs : List MEvent)
    (t T : ℚ)
    (hT : ∀ s ∈ (on_no_motion (runMEvents (mkManager cfg) evs) t).active_sessions,
      ∀ c : ℚ, s.cooldown_start_time = some c → c + cfg.cooldown_seconds ≤ T) :
    (tick (on_no_motion (runMEvents (mkManager cfg) evs) t) T).start_calls =
      (tick (on_no_motion (runMEvents (mkManager cfg) evs) t) T).finalize_calls ∧
    ((tick (on_no_motion (runMEvents (mkManager cfg) evs) t) T).completed_sessions.map
      Session.id).Nodup ∧
    (∀ s ∈ (tick (on_no_motion (runMEvents (mkManager cfg) evs) t) T).completed_sessions,
      s.state = COMPLETED) ∧
    (∀ s ∈ (tick (on_no_motion (runMEvents (mkManager cfg) evs) t) T).completed_sessions,
      ∀ u ∈ (tick (on_no_motion (runMEvents (mkManager cfg) evs) t) T).active_sessions,
        s.id ≠ u.id) := by
  have inv0 : managerInv (runMEvents (mkManager cfg) evs) :=
    managerInv_runMEvents evs (mkManager cfg) (managerInv_mkManager cfg)
  have inv1 : managerInv (on_no_motion (runMEvents (mkManager cfg) evs) t) :=
    managerInv_on_no_motion _ t inv0
  have hcfg1 : (on_no_motion (runMEvents (mkManager cfg) evs) t).config = cfg := by
    show (runMEvents (mkManager cfg) evs).config = cfg
    rw [config_runMEvents]
    rfl
  have hcnt1 := inv1.1
  have hnodup1 := inv1.2.2.2.1
  -- after `on_no_motion`, every active session sits in COOLDOWN with a stamp
  have hcool : ∀ s ∈ (on_no_motion (runMEvents (mkManager cfg) evs) t).active_sessions,
      s.state = COOLDOWN ∧ s.cooldown_start_time ≠ none := by
    intro s hs
    have hact : (on_no_motion (runMEvents (mkManager cfg) evs) t).active_sessions =
        (runMEvents (mkManager cfg) evs).active_sessions.map (fun s =>
          if s.state = RECORDING then enter_cooldown s t else s) := rfl
    rw [hact, List.mem_map] at hs
    obtain ⟨u, hu, hsu⟩ := hs
    subst hsu
    rcases inv0.2.2.1 u hu with ⟨h1, _⟩ | ⟨h1, h2⟩
    · rw [if_pos h1, enter_cooldown, if_pos h1]
      exact ⟨rfl, by simp⟩
    · rw [if_neg (by rw [h1]; exact fun hh => nomatch hh)]
      exact ⟨h1, h2⟩
  -- with `T` past every stamp, every active session finalizes at the tick
  have hallfin : ∀ s ∈ (on_no_motion (runMEvents (mkManager cfg) evs) t).active_sessions,
      should_finalize s T
        (on_no_motion (runMEvents (mkManager cfg) evs) t).config.cooldown_seconds = true := by
    intro s hs
    obtain ⟨hscool, hsstamp⟩ := hcool s hs
    cases hstamp : s.cooldown_start_time with
    | none => exact absurd hstamp hsstamp
    | some c =>
      rw [should_finalize, if_neg (by rw [hscool]; exact fun hh => hh rfl), hstamp]
      have hc : c + cfg.cooldown_seconds ≤ T := hT s hs c hstamp
      rw [hcfg1]
      refine decide_eq_true ?_
      rw [ge_iff_le, le_sub_iff_add_le]
      rw [add_comm]
      exact hc
  have hfilter : (on_no_motion (runMEvents (mkManager cfg) evs) t).active_sessions.filter
      (fun s => should_finalize s T
        (on_no_motion (runMEvents (mkManager cfg) evs) t).config.cooldown_seconds) =
      (on_no_motion (runMEvents (mkManager cfg) evs) t).active_sessions :=
    List.filter_eq_self.mpr hallfin
  have hnodup_act : ((on_no_motion (runMEvents (mkManager cfg) evs)
      t).active_sessions.map Session.id).Nodup := by
    rw [List.map_append] at hnodup1
    exact (List.nodup_append.mp hnodup1).1
  obtain ⟨ha2, hc2, hf2, hst2, _, _⟩ :=
    tick_spec (on_no_motion (runMEvents (mkManager cfg) evs) t) T hnodup_act
  have hempty : (tick (on_no_motion (runMEvents (mkManager cfg) evs) t)
      T).active_sessions = [] := by
    rw [ha2]
    refine List.filter_eq_nil.mpr (fun s hs => ?_)
    rw [hallfin s hs]
    simp
  have inv2 : managerInv (tick (on_no_motion (runMEvents (mkManager cfg) evs) t) T) :=
    managerInv_tick _ T inv1
  refine ⟨?_, ?_, ?_, ?_⟩
  · rw [hst2, hf2, hfilter, hcnt1]
  · have := inv2.2.2.2.1
    rw [hempty] at this
    simpa using this
  · exact inv2.2.2.2.2.2
  · intro s _ u hu
    rw [hempty] at hu
    exact absurd hu (List.not_mem_nil u)

/-- Witness for C1 amended: motion at 0, no-motion at 5, tick at 100
with a cooldown of 10 finalizes the one session; one start, one
finalize. -/
theorem C1_start_finalize_amended_witness :
    (∀ s ∈ (on_no_motion (runMEvents (mkManager ⟨10, 10⟩) [MEvent.motion 0])
        5).active_sessions,
      ∀ c : ℚ, s.cooldown_start_time = some c →
        c + (⟨10, 10⟩ : SessionManagerConfig).cooldown_seconds ≤ 100) ∧
    (tick (on_no_motion (runMEvents (mkManager ⟨10, 10⟩) [MEvent.motion 0]) 5)
        100).start_calls =
      (tick (on_no_motion (runMEvents (mkManager ⟨10, 10⟩) [MEvent.motion 0]) 5)
        100).finalize_calls := by
  have hT : ∀ s ∈ (on_no_motion (runMEvents (mkManager ⟨10, 10⟩) [MEvent.motion 0])
      5).active_sessions,
      ∀ c : ℚ, s.cooldown_start_time = some c →
        c + (⟨10, 10⟩ : SessionManagerConfig).cooldown_seconds ≤ 100 := by
    intro s hs c hc
    have hact : (on_no_motion (runMEvents (mkManager ⟨10, 10⟩) [MEvent.motion 0])
        5).active_sessions = [⟨0, COOLDOWN, 0, 0, some 5, []⟩] := rfl
    rw [hact, List.mem_singleton] at hs
    subst hs
    have hc5 : c = 5 := by
      have := hc.symm
      simpa using this
    subst hc5
    show (5 : ℚ) + 10 ≤ 100
    norm_num
  exact ⟨hT, (C1_start_finalize_amended ⟨10, 10⟩ [MEvent.motion 0] 5 100 hT).1⟩

/-! ## C7: detector hysteresis

The motion half of `analyze_frame` projects onto an automaton over
`(motion_state, low_motion_count)` driven by one bit per frame: whether
the frame's smoothed score stayed at or below the threshold. -/

/-- One step of the hysteresis automaton (src/detector.py lines
93–106), over the "frame was low" bit. -/
def hystStep (st : Bool × Nat) (low : Bool) : Bool × Nat :=
  if low = false then (true, 0)
  else if st.1 then
    (if HYSTERESIS_FRAMES ≤ st.2 + 1 then false else true, st.2 + 1)
  else st

/-- The per-frame low bits of a run. -/
def lowFlags (d : Detector) : List FrameData → List Bool
  | [] => []
  | f :: fs =>
    decide ((analyze_frame d f).2.smoothed_motion_score ≤ d.motion_threshold) ::
      lowFlags (stepDetector d f) fs

theorem motion_threshold_step (d : Detector) (f : FrameData) :
    (stepDetector d f).motion_threshold = d.motion_threshold := rfl

theorem hyst_correspond (d : Detector) (f : FrameData) :
    ((stepDetector d f).motion_state, (stepDetector d f).low_motion_count) =
      hystStep (d.motion_state, d.low_motion_count)
        (decide ((analyze_frame d f).2.smoothed_motion_score ≤ d.motion_threshold)) := by
  have hres : (analyze_frame d f).2.smoothed_motion_score = smoothedOf d f := rfl
  rw [hres]
  by_cases h : d.motion_threshold < smoothedOf d f
  · have hlow : decide (smoothedOf d f ≤ d.motion_threshold) = false :=
      decide_eq_false (not_le.mpr h)
    rw [hlow]
    unfold stepDetector analyze_frame hystStep
    simp [h]
  · have hlow : decide (smoothedOf d f ≤ d.motion_threshold) = true :=
      decide_eq_true (not_lt.mp h)
    rw [hlow]
    unfold stepDetector analyze_frame hystStep
    by_cases hm : d.motion_state <;> simp [h, hm]

theorem run_correspond (fs : List FrameData) (d : Detector) :
    ((runDetector d fs).motion_state, (runDetector d fs).low_motion_count) =
      (lowFlags d fs).foldl hystStep (d.motion_state, d.low_motion_count) := by
  induction fs generalizing d with
  | nil => rfl
  | cons f fs ih =>
    show ((runDetector (stepDetector d f) fs).motion_state,
        (runDetector (stepDetector d f) fs).low_motion_count) =
      (lowFlags d (f :: fs)).foldl hystStep (d.motion_state, d.low_motion_count)
    rw [lowFlags, List.foldl_cons, ← hyst_correspond]
    exact ih (stepDetector d f)

theorem lowFlags_length (fs : List FrameData) (d : Detector) :
    (lowFlags d fs).length = fs.length := by
  induction fs generalizing d with
  | nil => rfl
  | cons f fs ih =>
    rw [lowFlags, List.length_cons, List.length_cons, ih (stepDetector d f)]

theorem lowFlags_get? (fs : List FrameData) (d : Detector) (n : Nat) (f : FrameData)
    (h : fs.get? n = some f) :
    (lowFlags d fs).get? n =
      some (decide (smoothedAt d fs n ≤ d.motion_threshold)) := by
  induction fs generalizing d n with
  | nil => exact absurd h (by simp)
  | cons g fs ih =>
    cases n with
    | zero =>
      rw [lowFlags]
      show some (decide ((analyze_frame d g).2.smoothed_motion_score ≤ d.motion_threshold)) =
        some (decide (smoothedAt d (g :: fs) 0 ≤ d.motion_threshold))
      rfl
    | succ n =>
      rw [lowFlags]
      show (lowFlags (stepDetector d g) fs).get? n =
        some (decide (smoothedAt d (g :: fs) (n + 1) ≤ d.motion_threshold))
      have h' : fs.get? n = some f := h
      rw [ih (stepDetector d g) n h']
      rfl

theorem hyst_core (bs : List Bool) : ∀ c : Nat,
    (bs.foldl hystStep (true, c)).1 = false →
    ∃ i k, i + k ≤ bs.length ∧ (∀ j, j < k → bs.get? (i + j) = some true) ∧
      ((i = 0 ∧ HYSTERESIS_FRAMES ≤ c + k) ∨ HYSTERESIS_FRAMES ≤ k) := by
  induction bs with
  | nil =>
    intro c h
    exact absurd h (by simp [List.foldl_nil])
  | cons b bs ih =>
    intro c h
    rw [List.foldl_cons] at h
    cases b with
    | false =>
      have hstep : hystStep (true, c) false = (true, 0) := rfl
      rw [hstep] at h
      obtain ⟨i, k, hlen, hwin, hdisj⟩ := ih 0 h
      have hk : HYSTERESIS_FRAMES ≤ k := by
        rcases hdisj with ⟨_, hk⟩ | hk
        · simpa using hk
        · exact hk
      refine ⟨i + 1, k, ?_, ?_, Or.inr hk⟩
      · rw [List.length_cons]; omega
      · intro j hj
        have := hwin j hj
        show (false :: bs).get? (i + 1 + j) = some true
        rw [show i + 1 + j = (i + j) + 1 by omega, List.get?_cons_succ]
        exact this
    | true =>
      by_cases hH : HYSTERESIS_FRAMES ≤ c + 1
      · refine ⟨0, 1, by rw [List.length_cons]; omega, ?_, Or.inl ⟨rfl, by omega⟩⟩
        intro j hj
        have hj0 : j = 0 := by omega
        subst hj0
        rfl
      · have hstep : hystStep (true, c) true = (true, c + 1) := by
          show (if (true : Bool) = false then ((true : Bool), 0)
            else if (true : Bool) then
              (if HYSTERESIS_FRAMES ≤ c + 1 then false else true, c + 1)
            else (true, c)) = (true, c + 1)
          simp [hH]
        rw [hstep] at h
        obtain ⟨i, k, hlen, hwin, hdisj⟩ := ih (c + 1) h
        rcases hdisj with ⟨hi0, hck⟩ | hk
        · subst hi0
          refine ⟨0, k + 1, by rw [List.length_cons]; omega, ?_, Or.inl ⟨rfl, by omega⟩⟩
          intro j hj
          cases j with
          | zero => rfl
          | succ j' =>
            have hj' : j' < k := by omega
            have := hwin j' hj'
            show (true :: bs).get? (0 + (j' + 1)) = some true
            rw [show 0 + (j' + 1) = j' + 1 by omega, List.get?_cons_succ]
            simpa using this
        · refine ⟨i + 1, k, by rw [List.length_cons]; omega, ?_, Or.inr hk⟩
          intro j hj
          have := hwin j hj
          show (true :: bs).get? (i + 1 + j) = some true
          rw [show i + 1 + j = (i + j) + 1 by omega, List.get?_cons_succ]
          exact this

/-- C7: once `motion_detected` is true (hysteresis counter freshly
reset, as the code leaves it whenever the flag turns true), it can only
turn false after some window of `HYSTERESIS_FRAMES` consecutive frames
whose smoothed score stayed `≤ motion_threshold`; and any frame whose
smoothed score exceeds the threshold resets the consecutive-low count
to zero (and forces the flag true). -/
theorem C7_hysteresis :
    (∀ (d : Detector) (fs : List FrameData),
      d.motion_state = true → d.low_motion_count = 0 →
      (runDetector d fs).motion_state = false →
      ∃ i, i + HYSTERESIS_FRAMES ≤ fs.length ∧
        ∀ j, j < HYSTERESIS_FRAMES →
          smoothedAt d fs (i + j) ≤ d.motion_threshold) ∧
    (∀ (d : Detector) (f : FrameData),
      d.motion_threshold < (analyze_frame d f).2.smoothed_motion_score →
      (analyze_frame d f).1.low_motion_count = 0 ∧
      (analyze_frame d f).1.motion_state = true) := by
  constructor
  · intro d fs hms hlc hfalse
    have hrun := run_correspond fs d
    rw [hms, hlc] at hrun
    have hfold : ((lowFlags d fs).foldl hystStep (true, 0)).1 = false := by
      rw [← hrun]
      exact hfalse
    obtain ⟨i, k, hlen, hwin, hdisj⟩ := hyst_core (lowFlags d fs) 0 hfold
    have hk : HYSTERESIS_FRAMES ≤ k := by
      rcases hdisj with ⟨_, hk⟩ | hk
      · simpa using hk
      · exact hk
    have hflen := lowFlags_length fs d
    refine ⟨i, by omega, ?_⟩
    intro j hj
    have hwj := hwin j (lt_of_lt_of_le hj hk)
    have hlt : i + j < fs.length := by omega
    have hget : fs.get? (i + j) = some (fs.get ⟨i + j, hlt⟩) := List.get?_eq_get hlt
    have := lowFlags_get? fs d (i + j) (fs.get ⟨i + j, hlt⟩) hget
    rw [this] at hwj
    have hdec : decide (smoothedAt d fs (i + j) ≤ d.motion_threshold) = true :=
      Option.some.inj hwj
    exact of_decide_eq_true hdec
  · intro d f h
    have hres : (analyze_frame d f).2.smoothed_motion_score = smoothedOf d f := rfl
    rw [hres] at h
    constructor
    · show (analyze_frame d f).1.low_motion_count = 0
      unfold analyze_frame
      simp [h]
    · show (analyze_frame d f).1.motion_state = true
      unfold analyze_frame
      simp [h]

/-- The detector state used to witness C7 part 1: threshold 1, motion
flag just turned true, empty window. -/
def detW : Detector :=
  { motion_threshold := 1, light_jump_threshold := 30, last_brightness := none,
    motion_scores := [], motion_state := true, low_motion_count := 0 }

/-- The detector state used to witness C7 part 2: currently no motion,
a stale consecutive-low count of 7. -/
def detR : Detector :=
  { motion_threshold := 1, light_jump_threshold := 30, last_brightness := none,
    motion_scores := [], motion_state := false, low_motion_count := 7 }

theorem step_zero (lb : Option ℚ) (m c : Nat) (ms : Bool) :
    stepDetector ⟨1, 30, lb, List.replicate m 0, ms, c⟩ ⟨0, 0⟩ =
      ⟨1, 30, some 0, List.replicate (min (m + 1) SMOOTHING_WINDOW) 0,
        if ms then (if HYSTERESIS_FRAMES ≤ c + 1 then false else true) else ms,
        if ms then c + 1 else c⟩ := by
  have hpush : pushScore (List.replicate m 0) 0 =
      List.replicate (min (m + 1) SMOOTHING_WINDOW) 0 := by
    rw [pushScore]
    have h1 : List.replicate m (0:ℚ) ++ [0] = List.replicate (m + 1) (0:ℚ) := by
      rw [List.replicate_succ']
    rw [h1, List.length_replicate, List.drop_replicate]
    congr 1
    omega
  have hsm : smoothedOf ⟨1, 30, lb, List.replicate m 0, ms, c⟩ ⟨0, 0⟩ = 0 := by
    show (pushScore (List.replicate m 0) 0).sum /
        (((pushScore (List.replicate m 0) 0).length : ℚ)) = 0
    rw [hpush, List.sum_replicate]
    simp
  have hnotlt : ¬((⟨1, 30, lb, List.replicate m 0, ms, c⟩ : Detector).motion_threshold <
      smoothedOf ⟨1, 30, lb, List.replicate m 0, ms, c⟩ ⟨0, 0⟩) := by
    rw [hsm]
    show ¬((1:ℚ) < 0)
    norm_num
  unfold stepDetector analyze_frame
  simp only [hnotlt, if_false, hpush]
  cases ms with
  | false => simp
  | true => simp

theorem runDetector_zeros (n : Nat) (h : n ≤ HYSTERESIS_FRAMES) :
    runDetector detW (List.replicate n ⟨0, 0⟩) =
      ⟨1, 30, if n = 0 then none else some 0, List.replicate (min n SMOOTHING_WINDOW) 0,
        decide (n < HYSTERESIS_FRAMES), n⟩ := by
  induction n with
  | zero => rfl
  | succ n ih =>
    have hn : n ≤ HYSTERESIS_FRAMES := Nat.le_of_succ_le h
    have hlt : n < HYSTERESIS_FRAMES := Nat.lt_of_succ_le h
    have hrepl : List.replicate (n + 1) (⟨0, 0⟩ : FrameData) =
        List.replicate n ⟨0, 0⟩ ++ [⟨0, 0⟩] := List.replicate_succ' ..
    have happ : runDetector detW (List.replicate n ⟨0, 0⟩ ++ [⟨0, 0⟩]) =
        stepDetector (runDetector detW (List.replicate n ⟨0, 0⟩)) ⟨0, 0⟩ := by
      rw [runDetector, List.foldl_append]
      rfl
    rw [hrepl, happ, ih hn]
    have hms : (decide (n < HYSTERESIS_FRAMES)) = true := decide_eq_true hlt
    cases hn0 : n with
    | zero =>
      subst hn0
      rw [step_zero]
      simp [HYSTERESIS_FRAMES]
    | succ n' =>
      rw [← hn0]
      have hif : (if n = 0 then (none : Option ℚ) else some 0) = some 0 := by
        rw [if_neg (by omega)]
      rw [hif, step_zero, hms]
      have hmin : min (min n SMOOTHING_WINDOW + 1) SMOOTHING_WINDOW =
          min (n + 1) SMOOTHING_WINDOW := by
        rw [SMOOTHING_WINDOW]; omega
      rw [hmin]
      have hflag : (if (true : Bool) then
          (if HYSTERESIS_FRAMES ≤ n + 1 then false else true) else true) =
          decide (n + 1 < HYSTERESIS_FRAMES) := by
        rw [if_pos rfl]
        by_cases hh : HYSTERESIS_FRAMES ≤ n + 1
        · rw [if_pos hh]
          exact (decide_eq_false (by omega)).symm
        · rw [if_neg hh]
          exact (decide_eq_true (by omega)).symm
      rw [hflag]
      simp

/-- Witness for C7: from `detW` (motion on, counter 0, threshold 1),
thirty zero-score frames drive `motion_detected` to false, so the
theorem produces the all-low window; and from `detR` a frame with raw
score 2 exceeds the threshold and resets the counter. -/
theorem C7_hysteresis_witness :
    (detW.motion_state = true ∧ detW.low_motion_count = 0 ∧
      (runDetector detW (List.replicate 30 ⟨0, 0⟩)).motion_state = false ∧
      ∃ i, i + HYSTERESIS_FRAMES ≤ (List.replicate 30 (⟨0, 0⟩ : FrameData)).length ∧
        ∀ j, j < HYSTERESIS_FRAMES →
          smoothedAt detW (List.replicate 30 ⟨0, 0⟩) (i + j) ≤ detW.motion_threshold) ∧
    (detR.motion_threshold < (analyze_frame detR ⟨2, 0⟩).2.smoothed_motion_score ∧
      (analyze_frame detR ⟨2, 0⟩).1.low_motion_count = 0 ∧
      (analyze_frame detR ⟨2, 0⟩).1.motion_state = true) := by
  have hrun : (runDetector detW (List.replicate 30 ⟨0, 0⟩)).motion_state = false := by
    rw [show (30 : Nat) = HYSTERESIS_FRAMES from rfl] at *
    rw [runDetector_zeros HYSTERESIS_FRAMES (le_refl _)]
    simp
  have hgt : detR.motion_threshold < (analyze_frame detR ⟨2, 0⟩).2.smoothed_motion_score := by
    have : (analyze_frame detR ⟨2, 0⟩).2.smoothed_motion_score = 2 := by
      show smoothedOf detR ⟨2, 0⟩ = 2
      rw [smoothedOf]
      show ((pushScore [] 2).sum) / (((pushScore [] 2).length : ℚ)) = 2
      rw [pushScore]
      norm_num [SMOOTHING_WINDOW]
    rw [this]
    show (1:ℚ) < 2
    norm_num
  exact ⟨⟨rfl, rfl, hrun,
    C7_hysteresis.1 detW (List.replicate 30 ⟨0, 0⟩) rfl rfl hrun⟩,
   ⟨hgt, C7_hysteresis.2 detR ⟨2, 0⟩ hgt⟩⟩

end DevicePilot
